import Mathlib

/-!
Shallow embedding of the hdtime benchmark engine (benchmarks.c, humanize.c)
and proofs about its data model and algorithms.

Machine integers are modelled as `Nat` with explicit reduction modulo
`2 ^ 64` (`size_t` / `uint64_t`) or `2 ^ 32` (`unsigned int`) at the
points where the C code can overflow or truncate.  Fatal `exit()` paths
are modelled with `Option` (`none` = the process terminates).  Results of
clock measurements and device reads are inputs (oracle parameters) of the
embedded functions, since the embedding is pure.
-/

namespace Hdtime

/-- Modulus of the 64-bit unsigned types (`size_t`, `uint64_t`) on the
target platform. -/
def U64 : Nat := 2 ^ 64

/-- Modulus of `unsigned int` (32 bits) on the target platform. -/
def U32 : Nat := 2 ^ 32

/-- One mebibyte, `#define MIB (1024UL * 1024UL)`. -/
def MIB : Nat := 1024 * 1024

/-- `#define DEFAULT_RAND_READ_SEEKS 200`. -/
def DEFAULT_RAND_READ_SEEKS : Nat := 200

/-- `#define MIN_AUTO_RAND_READ_NS (1000000000UL)`. -/
def MIN_AUTO_RAND_READ_NS : Nat := 1000000000

/-- `#define MAX_AUTO_RAND_READ_SEEKS 25600`. -/
def MAX_AUTO_RAND_READ_SEEKS : Nat := 25600

/-- `#define DEFAULT_SEQ_READ_BYTES (64 * MIB)`. -/
def DEFAULT_SEQ_READ_BYTES : Nat := 64 * MIB

/-- `#define MIN_AUTO_SEQ_READ_NS (2000000000UL)`. -/
def MIN_AUTO_SEQ_READ_NS : Nat := 2000000000

/-- `#define MAX_AUTO_SEQ_READ_BYTES (1024UL * MIB)`. -/
def MAX_AUTO_SEQ_READ_BYTES : Nat := 1024 * MIB

/-- `RAND_MAX` of glibc on Linux (the platform this program targets:
it uses `linux/fs.h` ioctls): `2 ^ 31 - 1`. -/
def GLIBC_RAND_MAX : Nat := 2 ^ 31 - 1

theorem default_seq_read_bytes_pos : 0 < DEFAULT_SEQ_READ_BYTES := by decide

theorem default_rand_read_seeks_pos : 0 < DEFAULT_RAND_READ_SEEKS := by decide

/-- Embedding of `align_ceil` (benchmarks.c:147).

    static inline size_t align_ceil(size_t n, size_t alignment)
    {
        const size_t remainder = n % alignment;
        return remainder != 0 ? (n - remainder) + alignment : n;
    }

The sum `(n - remainder) + alignment` is `size_t` arithmetic, hence the
reduction modulo `2 ^ 64`; the subtraction can never wrap because
`remainder ≤ n`. -/
def align_ceil (n alignment : Nat) : Nat :=
  let remainder := n % alignment
  if remainder ≠ 0 then ((n - remainder) + alignment) % U64 else n

/-- Embedding of `random64` (benchmarks.c:162), parametrised by the
platform constant `RAND_MAX` (called `randMax` here) and by the value
`r` returned by `random()` (an integer in `0 .. randMax`).

    if (RAND_MAX < ~(uint64_t)0)
        return random() * (~(uint64_t)0 / RAND_MAX);
    else
        return (uint64_t)random();

The multiplication is `uint64_t` arithmetic, hence the reduction modulo
`2 ^ 64`. -/
def random64 (randMax r : Nat) : Nat :=
  if randMax < U64 - 1 then (r * ((U64 - 1) / randMax)) % U64 else r % U64

/-- Embedding of `log2_floor` (benchmarks.c:178):

    unsigned int exp = 0;
    while (x > 1) { exp++; x >>= 1; }
    return exp;

The C code asserts `x != 0`; the embedding returns 0 on input 0, a value
the program never uses (all callers exclude 0 first). -/
def log2_floor (x : Nat) : Nat :=
  if 1 < x then 1 + log2_floor (x / 2) else 0
termination_by x
decreasing_by omega

/-- Embedding of `smallest_power_of_2_that_holds` (benchmarks.c:203) for
the 32-bit `unsigned int` of the target platform.  `none` models the
fatal `exit(1)` when the input exceeds `2 ^ 31`, the largest power of two
an `unsigned int` can hold.

    if (x == 0) return 1;
    if (x > (1U << (sizeof(unsigned int)*CHAR_BIT - 1))) exit(1);
    exp = log2_floor(x);
    return 1U << exp == x ? x : 1U << (exp + 1); -/
def smallest_power_of_2_that_holds (x : Nat) : Option Nat :=
  if x = 0 then some 1
  else if 2 ^ 31 < x then none
  else
    let exp := log2_floor x
    if 2 ^ exp = x then some x else some (2 ^ (exp + 1))

/- ------------------------------------------------------------------ -/
/- Helper lemmas about log2_floor and align_ceil.                      -/
/- ------------------------------------------------------------------ -/

theorem log2_floor_spec : ∀ x : Nat, 0 < x →
    2 ^ log2_floor x ≤ x ∧ x < 2 ^ (log2_floor x + 1) := by
  intro x
  induction x using Nat.strong_induction_on with
  | _ x ih =>
    intro hx
    rw [log2_floor]
    by_cases h : 1 < x
    · have hhalf : 0 < x / 2 := by omega
      have hlt : x / 2 < x := by omega
      obtain ⟨h1, h2⟩ := ih (x / 2) hlt hhalf
      simp only [if_pos h]
      constructor
      · have : 2 ^ (1 + log2_floor (x / 2)) = 2 * 2 ^ log2_floor (x / 2) := by
          rw [pow_add]; ring
        rw [this]
        omega
      · have : 2 ^ (1 + log2_floor (x / 2) + 1) = 2 * 2 ^ (log2_floor (x / 2) + 1) := by
          rw [pow_add, pow_add, pow_add]; ring
        rw [this]
        omega
    · simp only [if_neg h]
      omega

theorem log2_floor_pow (k : Nat) : log2_floor (2 ^ k) = k := by
  induction k with
  | zero => rw [log2_floor]; norm_num
  | succ n ih =>
    rw [log2_floor]
    have h1 : 1 < 2 ^ (n + 1) := by
      have : 2 ^ 1 ≤ 2 ^ (n + 1) := Nat.pow_le_pow_right (by omega) (by omega)
      omega
    have h2 : 2 ^ (n + 1) / 2 = 2 ^ n := by
      rw [pow_succ]
      exact Nat.mul_div_cancel _ (by omega)
    rw [if_pos h1, h2, ih]
    omega

/-- The value produced by `smallest_power_of_2_that_holds` is a power of
two not exceeding `2 ^ 31`. -/
theorem smallest_power_of_2_pow {x p : Nat}
    (h : smallest_power_of_2_that_holds x = some p) :
    (∃ k, p = 2 ^ k) ∧ p ≤ 2 ^ 31 := by
  unfold smallest_power_of_2_that_holds at h
  by_cases h0 : x = 0
  · rw [if_pos h0] at h
    simp only [Option.some.injEq] at h
    subst h
    exact ⟨⟨0, rfl⟩, by norm_num⟩
  · rw [if_neg h0] at h
    by_cases hbig : 2 ^ 31 < x
    · rw [if_pos hbig] at h; exact absurd h (by simp)
    · rw [if_neg hbig] at h
      simp only at h
      obtain ⟨hle, hlt⟩ := log2_floor_spec x (by omega)
      by_cases heq : 2 ^ log2_floor x = x
      · rw [if_pos heq] at h
        simp only [Option.some.injEq] at h
        subst h
        exact ⟨⟨log2_floor x, heq.symm⟩, by omega⟩
      · rw [if_neg heq] at h
        simp only [Option.some.injEq] at h
        subst h
        have hexp : log2_floor x + 1 ≤ 31 := by
          by_contra hc
          have h31 : 31 ≤ log2_floor x := by omega
          have : 2 ^ 31 ≤ 2 ^ log2_floor x := Nat.pow_le_pow_right (by omega) h31
          omega
        have : 2 ^ (log2_floor x + 1) ≤ 2 ^ 31 := Nat.pow_le_pow_right (by omega) hexp
        exact ⟨⟨log2_floor x + 1, rfl⟩, by omega⟩

theorem smallest_power_of_2_of_pow {k : Nat} (hk : k ≤ 31) :
    smallest_power_of_2_that_holds (2 ^ k) = some (2 ^ k) := by
  unfold smallest_power_of_2_that_holds
  have hpos : 0 < 2 ^ k := Nat.pos_pow_of_pos k (by omega)
  have hle : 2 ^ k ≤ 2 ^ 31 := Nat.pow_le_pow_right (by omega) hk
  rw [if_neg (by omega), if_neg (by omega)]
  simp [log2_floor_pow]

/-- When the `size_t` sum in `align_ceil` cannot wrap, the result is the
plain rounded-up value. -/
theorem align_ceil_eq_of_no_wrap {n a : Nat} (ha : 0 < a) (h : n + a ≤ U64) :
    align_ceil n a = if n % a = 0 then n else (n - n % a) + a := by
  unfold align_ceil
  have hr : n % a < a := Nat.mod_lt n ha
  have hle : n % a ≤ n := Nat.mod_le n a
  by_cases h0 : n % a = 0
  · simp [h0]
  · rw [if_pos h0, if_neg h0]
    exact Nat.mod_eq_of_lt (by omega)

theorem align_ceil_mod {n a : Nat} (ha : 0 < a) (h : n + a ≤ U64) :
    align_ceil n a % a = 0 := by
  rw [align_ceil_eq_of_no_wrap ha h]
  by_cases h0 : n % a = 0
  · simp [h0]
  · rw [if_neg h0]
    have hdm : a * (n / a) + n % a = n := Nat.div_add_mod n a
    have hsub : n - n % a = a * (n / a) := by omega
    rw [hsub]
    simp [Nat.mul_mod_right, Nat.add_mod]

theorem align_ceil_ge {n a : Nat} (ha : 0 < a) (h : n + a ≤ U64) :
    n ≤ align_ceil n a := by
  rw [align_ceil_eq_of_no_wrap ha h]
  have hr : n % a < a := Nat.mod_lt n ha
  have : n % a ≤ n := Nat.mod_le n a
  by_cases h0 : n % a = 0
  · simp [h0]
  · rw [if_neg h0]
    omega

/-- A power of two that fits in `size_t` divides `align_ceil`'s result
unconditionally, wraparound included (`2 ^ k` divides `2 ^ 64`). -/
theorem align_ceil_pow2_dvd (n k : Nat) (hk : k < 64) :
    2 ^ k ∣ align_ceil n (2 ^ k) := by
  unfold align_ceil
  set a := 2 ^ k with ha
  by_cases h0 : n % a = 0
  · simpa [h0] using Nat.dvd_of_mod_eq_zero h0
  · rw [if_pos h0]
    have hdm : a * (n / a) + n % a = n := Nat.div_add_mod n a
    have hsub : n - n % a = a * (n / a) := by omega
    have hd1 : a ∣ (n - n % a) + a := by
      rw [hsub]
      exact Dvd.dvd.add (Dvd.intro _ rfl) dvd_rfl
    have hd2 : a ∣ U64 := by
      rw [ha]
      exact pow_dvd_pow 2 (by omega)
    exact (Nat.dvd_mod_iff hd2).mpr hd1

/- ------------------------------------------------------------------ -/
/- Device prober (get_physical_block_size, get_dev_size,               -/
/- get_readbuf_align, get_blkdev_info).                                -/
/- ------------------------------------------------------------------ -/

/-- Embedding of `struct blkdev_info` (benchmarks.c:93).  Field order as
in the C struct. -/
structure blkdev_info where
  dev_size : Nat
  num_blocks : Nat
  block_size : Nat
  alignment : Nat
deriving DecidableEq, Repr

/-- Embedding of `get_readbuf_align` (benchmarks.c:280).  The result of
`fpathconf(fd, _PC_REC_XFER_ALIGN)` is the input `align_l` (an `Int`,
`-1` meaning "no recommendation"); the physical block size of the device
is `block_size`.  Modelled on the success path (`errno == 0`; a failing
`fpathconf` terminates the process).

    switch (align_l) {
        case -1: die_if(errno != 0, "fpathconf"); /* FALL THROUGH */
        case 0:  align_l = (long)get_physical_block_size(fd);
    }
    return (size_t)align_l; -/
def get_readbuf_align (align_l : Int) (block_size : Nat) : Nat :=
  if align_l = -1 ∨ align_l = 0 then block_size else align_l.toNat

/-- Embedding of `get_blkdev_info` (benchmarks.c:704).  The two ioctl
results (physical block size and device size) and the `fpathconf` result
are inputs.  `none` models the fatal exit when the device is smaller
than its own block size.

    blkdev_info->block_size = get_physical_block_size(fd);
    blkdev_info->dev_size = get_dev_size(fd);
    blkdev_info->num_blocks = blkdev_info->dev_size / blkdev_info->block_size;
    if (blkdev_info->dev_size < blkdev_info->block_size) exit(1);
    blkdev_info->alignment = get_readbuf_align(fd); -/
def get_blkdev_info (block_size dev_size : Nat) (align_l : Int) :
    Option blkdev_info :=
  if dev_size < block_size then none
  else some
    { dev_size := dev_size
      num_blocks := dev_size / block_size
      block_size := block_size
      alignment := get_readbuf_align align_l block_size }

/- ------------------------------------------------------------------ -/
/- Sequential read benchmark (get_block_read_for_size,                 -/
/- get_block_read_ns).                                                 -/
/- ------------------------------------------------------------------ -/

/-- Observable outcome of one call to `get_block_read_for_size`
(benchmarks.c:425): the two `read_at` operations it issues (offset and
length, in order), the value stored through `p_total_bytes`, the value
stored through `p_total_read_ns`, and the function's return value. -/
structure seq_trial where
  reads : List (Nat × Nat)
  total_bytes : Nat
  total_read_ns : Nat
  block_read_ns : Nat
deriving DecidableEq, Repr

/-- Embedding of `get_block_read_for_size` (benchmarks.c:425).
`delta_ns` is the elapsed time measured by the monotonic clock around
the two reads — an input of the embedding, since it comes from the
hardware.

    size_t aligned_read_size = align_ceil(read_size, blkdev_info->alignment);
    if (aligned_read_size > blkdev_info->dev_size)
        aligned_read_size = blkdev_info->dev_size;
    read_at(fd, buffer, aligned_read_size, 0);
    read_at(fd, buffer, aligned_read_size, blkdev_info->dev_size - aligned_read_size);
    *p_total_bytes = aligned_read_size * 2;
    *p_total_read_ns = delta_ns;
    return delta_ns / ((aligned_read_size * 2) / blkdev_info->block_size);

The product `aligned_read_size * 2` is `size_t` arithmetic, hence the
reduction modulo `2 ^ 64`. -/
def get_block_read_for_size (info : blkdev_info) (read_size delta_ns : Nat) :
    seq_trial :=
  let aligned0 := align_ceil read_size info.alignment
  let aligned_read_size := if info.dev_size < aligned0 then info.dev_size else aligned0
  { reads := [(0, aligned_read_size),
              (info.dev_size - aligned_read_size, aligned_read_size)]
    total_bytes := (aligned_read_size * 2) % U64
    total_read_ns := delta_ns
    block_read_ns := delta_ns / (((aligned_read_size * 2) % U64) / info.block_size) }

/-- State of the autodetection loop of `get_block_read_ns` at a loop
check: accumulated byte count, accumulated elapsed time, and the current
value of the `read_size` loop variable. -/
structure seq_totals where
  total_bytes : Nat
  total_read_ns : Nat
  read_size : Nat
deriving DecidableEq, Repr

/-- Embedding of the autodetection loop of `get_block_read_ns`
(benchmarks.c:509):

    for (read_size = DEFAULT_SEQ_READ_BYTES;
         total_read_ns < MIN_AUTO_SEQ_READ_NS && read_size <= MAX_AUTO_SEQ_READ_BYTES;
         read_size *= 2)
    {
        (void)get_block_read_for_size(fd, blkdev_info, read_size,
                &_total_bytes, &_total_read_ns);
        total_bytes += _total_bytes;
        total_read_ns += _total_read_ns;
    }

`elapsed` maps a requested read size to the elapsed time the clock
measures for the trial at that size (each candidate size is used at most
once).  The definition is by well-founded recursion on the distance of
`read_size` to the ceiling, which proves that the loop terminates; the
positivity argument `hpos` records the C invariant that `read_size`
starts at 64 MiB and only doubles. -/
def auto_seq_loop (info : blkdev_info) (elapsed : Nat → Nat) (read_size : Nat)
    (hpos : 0 < read_size) (total_bytes total_read_ns : Nat) : seq_totals :=
  if h : total_read_ns < MIN_AUTO_SEQ_READ_NS ∧ read_size ≤ MAX_AUTO_SEQ_READ_BYTES then
    let t := get_block_read_for_size info read_size (elapsed read_size)
    auto_seq_loop info elapsed (read_size * 2) (by omega)
      (total_bytes + t.total_bytes) (total_read_ns + t.total_read_ns)
  else
    { total_bytes := total_bytes, total_read_ns := total_read_ns, read_size := read_size }
termination_by MAX_AUTO_SEQ_READ_BYTES + 1 - read_size
decreasing_by omega

/-- Embedding of `get_block_read_ns` (benchmarks.c:497).  Returns the
function's return value together with the values stored through
`p_total_bytes` and `p_total_read_ns`.

    if (read_size == 0) {
        loop (see auto_seq_loop);
        block_read_ns = total_read_ns / (total_bytes / blkdev_info->block_size);
        *p_total_bytes = total_bytes; *p_total_read_ns = total_read_ns;
    } else {
        block_read_ns = get_block_read_for_size(fd, blkdev_info, read_size,
                p_total_bytes, p_total_read_ns);
    } -/
def get_block_read_ns (info : blkdev_info) (elapsed : Nat → Nat)
    (read_size : Nat) : Nat × Nat × Nat :=
  if read_size = 0 then
    let s := auto_seq_loop info elapsed DEFAULT_SEQ_READ_BYTES
      default_seq_read_bytes_pos 0 0
    (s.total_read_ns / (s.total_bytes / info.block_size), s.total_bytes, s.total_read_ns)
  else
    let t := get_block_read_for_size info read_size (elapsed read_size)
    (t.block_read_ns, t.total_bytes, t.total_read_ns)

/- ------------------------------------------------------------------ -/
/- Random-access seek benchmark (get_seek_for_count, get_seek_ns).     -/
/- ------------------------------------------------------------------ -/

/-- Embedding of the seek-time computation of `get_seek_for_count`
(benchmarks.c:560).  `delta_ns` is the elapsed time the clock measures
around the whole read loop — an input of the embedding.  Returns the
function's return value (the value stored through `p_total_ns` is
`delta_ns` itself).

    const uint64_t randaccess_reading_ns = block_read_ns * num_seeks;
    return (delta_ns > randaccess_reading_ns)
           ? (delta_ns - randaccess_reading_ns) / num_seeks
           : 0;

The product is `uint64_t` arithmetic, hence the reduction modulo
`2 ^ 64`. -/
def get_seek_for_count (delta_ns block_read_ns num_seeks : Nat) : Nat :=
  let randaccess_reading_ns := (block_read_ns * num_seeks) % U64
  if randaccess_reading_ns < delta_ns
  then (delta_ns - randaccess_reading_ns) / num_seeks
  else 0

/-- Block index chosen by one iteration of the read loop of
`get_seek_for_count` (benchmarks.c:584), given the value `r` returned by
`random()`:

    uint64_t block_idx = random64() % num_blocks; -/
def seek_block_idx (randMax r num_blocks : Nat) : Nat :=
  random64 randMax r % num_blocks

/-- State of the autodetection loop of `get_seek_ns` at a loop check:
accumulated seek count, accumulated elapsed time, and the current value
of the `num_seeks` loop variable. -/
structure seek_totals where
  total_seeks : Nat
  total_ns : Nat
  num_seeks : Nat
deriving DecidableEq, Repr

/-- Embedding of the autodetection loop of `get_seek_ns`
(benchmarks.c:644):

    for (num_seeks = DEFAULT_RAND_READ_SEEKS;
         total_ns < MIN_AUTO_RAND_READ_NS && num_seeks <= MAX_AUTO_RAND_READ_SEEKS;
         num_seeks *= 2)
    {
        (void)get_seek_for_count(fd, blkdev_info, num_seeks,
                block_read_ns, &_total_ns);
        total_seeks += num_seeks;
        total_ns += _total_ns;
    }

`elapsed` maps a seek count to the elapsed time the clock measures for
the trial with that count.  `total_seeks` counts the random reads
actually performed (`get_seek_for_count` performs exactly `num_seeks`
reads per call). -/
def auto_seek_loop (elapsed : Nat → Nat) (num_seeks : Nat)
    (hpos : 0 < num_seeks) (total_seeks total_ns : Nat) : seek_totals :=
  if h : total_ns < MIN_AUTO_RAND_READ_NS ∧ num_seeks ≤ MAX_AUTO_RAND_READ_SEEKS then
    auto_seek_loop elapsed (num_seeks * 2) (by omega)
      (total_seeks + num_seeks) (total_ns + elapsed num_seeks)
  else
    { total_seeks := total_seeks, total_ns := total_ns, num_seeks := num_seeks }
termination_by MAX_AUTO_RAND_READ_SEEKS + 1 - num_seeks
decreasing_by omega

/-- Observable outcome of `get_seek_ns` (benchmarks.c:629): the return
value and the values stored through `p_total_ns` and
`p_randaccess_reading_ns`. -/
structure seek_result where
  seek_ns : Nat
  total_ns : Nat
  randaccess_reading_ns : Nat
deriving DecidableEq, Repr

/-- Embedding of `get_seek_ns` (benchmarks.c:629).

    if (num_seeks == 0) {
        loop (see auto_seek_loop);
        randaccess_reading_ns = block_read_ns * total_seeks;
        seek_ns = (total_ns > randaccess_reading_ns)
                  ? (total_ns - randaccess_reading_ns) / total_seeks : 0;
        *p_total_ns = total_ns;
    } else {
        seek_ns = get_seek_for_count(fd, blkdev_info, num_seeks, block_read_ns,
                p_total_ns);
        randaccess_reading_ns = block_read_ns * num_seeks;
    }
    *p_randaccess_reading_ns = randaccess_reading_ns; -/
def get_seek_ns (elapsed : Nat → Nat) (block_read_ns num_seeks : Nat) :
    seek_result :=
  if num_seeks = 0 then
    let s := auto_seek_loop elapsed DEFAULT_RAND_READ_SEEKS
      default_rand_read_seeks_pos 0 0
    let randaccess_reading_ns := (block_read_ns * s.total_seeks) % U64
    { seek_ns := if randaccess_reading_ns < s.total_ns
                 then (s.total_ns - randaccess_reading_ns) / s.total_seeks
                 else 0
      total_ns := s.total_ns
      randaccess_reading_ns := randaccess_reading_ns }
  else
    { seek_ns := get_seek_for_count (elapsed num_seeks) block_read_ns num_seeks
      total_ns := elapsed num_seeks
      randaccess_reading_ns := (block_read_ns * num_seeks) % U64 }

/- ------------------------------------------------------------------ -/
/- Orchestrator (run_benchmarks).                                      -/
/- ------------------------------------------------------------------ -/

/-- Embedding of `struct benchmark_results` (benchmarks.c:101), minus
the `path` string.  Field order as in the C struct. -/
structure benchmark_results where
  dev_info : blkdev_info
  seq_read_bytes : Nat
  num_seeks : Nat
  seq_read_ns : Nat
  block_read_ns : Nat
  total_randaccess_ns : Nat
  randaccess_reading_ns : Nat
  seek_ns : Nat
deriving DecidableEq, Repr

/-- Embedding of `run_benchmarks` (benchmarks.c:730).  `info` is the
descriptor produced by `get_blkdev_info`; `elapsed_seq` and
`elapsed_seek` are the clock measurements of the two benchmark phases.
Returns the filled `benchmark_results` record.

    res->block_read_ns = get_block_read_ns(fd, &res->dev_info, read_size,
            &res->seq_read_bytes, &res->seq_read_ns);
    res->seek_ns = get_seek_ns(fd, &res->dev_info, num_seeks,
            res->block_read_ns, &res->total_randaccess_ns,
            &res->randaccess_reading_ns);
    res->num_seeks = num_seeks; -/
def run_benchmarks (info : blkdev_info) (elapsed_seq elapsed_seek : Nat → Nat)
    (num_seeks read_size : Nat) : benchmark_results :=
  let b := get_block_read_ns info elapsed_seq read_size
  let s := get_seek_ns elapsed_seek b.1 num_seeks
  { dev_info := info
    seq_read_bytes := b.2.1
    num_seeks := num_seeks
    seq_read_ns := b.2.2
    block_read_ns := b.1
    total_randaccess_ns := s.total_ns
    randaccess_reading_ns := s.randaccess_reading_ns
    seek_ns := s.seek_ns }

/- ------------------------------------------------------------------ -/
/- Humanizer (humanize.c).                                             -/
/- ------------------------------------------------------------------ -/

/-- Embedding of the loop of `humanize_value` (humanize.c:96):

    for (i=x; i>=ratio && unit_exp<num_units; i/=ratio)
    {
        unit_exp++;
    }

`i` is a `long double`; on the inputs the claims are about (zero and
exact powers of the ratio) every intermediate value is an integer below
`2 ^ 63`, where x87 80-bit arithmetic is exact, so the embedding uses
exact rational arithmetic.  `num_units` is the length of the unit-name
array; the loop guard is `unit_exp < num_units`, so the final
`unit_exp` can reach `num_units` itself. -/
def humanize_loop (rat : ℚ) (num_units : Nat) (i : ℚ) (unit_exp : Nat) :
    ℚ × Nat :=
  if h : rat ≤ i ∧ unit_exp < num_units then
    humanize_loop rat num_units (i / rat) (unit_exp + 1)
  else
    (i, unit_exp)
termination_by num_units - unit_exp
decreasing_by omega

/-- Embedding of `humanize_value` (humanize.c:90): the final quotient
`*result` and the index `unit_exp` used for `units[unit_exp]`. -/
def humanize_value (x : ℚ) (rat : ℚ) (num_units : Nat) : ℚ × Nat :=
  humanize_loop rat num_units x 0

/-- Length of `BINARY_IEC_UNITS` / `SPEED_IEC_UNITS` (humanize.c:64):
B, KiB, MiB, GiB, TiB, PiB, EiB, ZiB, YiB. -/
def NUM_BINARY_IEC_UNITS : Nat := 9

/-- Length of `SECOND_FRACTION_UNITS` (humanize.c:72): ns, us, ms, s. -/
def NUM_SECOND_FRACTION_UNITS : Nat := 4

/-- Embedding of `humanize_binary_size` (humanize.c:115): the humanized
magnitude and the selected index into `BINARY_IEC_UNITS`. -/
def humanize_binary_size (x : Nat) : ℚ × Nat :=
  humanize_value (x : ℚ) 1024 NUM_BINARY_IEC_UNITS

/-- Scales used by `split_time` (humanize.c:147), in nanoseconds. -/
def SCALE_NS : Nat := 1

/-- `#define SCALE_US (1000*SCALE_NS)`. -/
def SCALE_US : Nat := 1000 * SCALE_NS

/-- `#define SCALE_MS (1000*SCALE_US)`. -/
def SCALE_MS : Nat := 1000 * SCALE_US

/-- `#define SCALE_S (1000*SCALE_MS)`. -/
def SCALE_S : Nat := 1000 * SCALE_MS

/-- `#define SCALE_MIN (60*SCALE_S)`. -/
def SCALE_MIN : Nat := 60 * SCALE_S

/-- `#define SCALE_HOUR (60*SCALE_MIN)`. -/
def SCALE_HOUR : Nat := 60 * SCALE_MIN

/-- `#define SCALE_DAY (24*SCALE_HOUR)`. -/
def SCALE_DAY : Nat := 24 * SCALE_HOUR

/-- `#define SCALE_YEAR (365*SCALE_DAY)`. -/
def SCALE_YEAR : Nat := 365 * SCALE_DAY

/-- `#define SCALE_MONTH (SCALE_YEAR/12)`: integer division, exact here
because `SCALE_YEAR` is a multiple of 12. -/
def SCALE_MONTH : Nat := SCALE_YEAR / 12

/-- Embedding of `struct human_time_value` (humanize.h).  The C fields
are `unsigned int`; each assignment from a `uint64_t` quotient truncates
modulo `2 ^ 32`, which the embedding of `split_time` makes explicit. -/
structure human_time_value where
  years : Nat
  months : Nat
  days : Nat
  hours : Nat
  minutes : Nat
  seconds : Nat
  miliseconds : Nat
  microseconds : Nat
  nanoseconds : Nat
deriving DecidableEq, Repr

/-- Embedding of `split_time` (humanize.c:165).  Each component is the
quotient of the running remainder by the component's scale, truncated to
`unsigned int`; the remainder chain uses `uint64_t` modulo. -/
def split_time (nanoseconds : Nat) : human_time_value :=
  let without_years := nanoseconds % SCALE_YEAR
  let without_months := without_years % SCALE_MONTH
  let without_days := without_months % SCALE_DAY
  let without_hours := without_days % SCALE_HOUR
  let without_minutes := without_hours % SCALE_MIN
  let without_seconds := without_minutes % SCALE_S
  let without_miliseconds := without_seconds % SCALE_MS
  let without_microseconds := without_miliseconds % SCALE_US
  { years := (nanoseconds / SCALE_YEAR) % U32
    months := (without_years / SCALE_MONTH) % U32
    days := (without_months / SCALE_DAY) % U32
    hours := (without_days / SCALE_HOUR) % U32
    minutes := (without_hours / SCALE_MIN) % U32
    seconds := (without_minutes / SCALE_S) % U32
    miliseconds := (without_seconds / SCALE_MS) % U32
    microseconds := (without_miliseconds / SCALE_US) % U32
    nanoseconds := (without_microseconds / SCALE_NS) % U32 }

/- ------------------------------------------------------------------ -/
/- Claim theorems.                                                     -/
/- ------------------------------------------------------------------ -/

/-- Claim C2: for every seek count N > 0, measured total elapsed time
`delta_ns` and per-block read-time estimate `block_read_ns` (uint64
values whose product `block_read_ns * N` stays below `2 ^ 64`, as it does
for any realistic measurement), the seek-time computation of
`get_seek_for_count` returns `(delta_ns − block_read_ns·N) / N` when
`delta_ns > block_read_ns·N`, and returns exactly 0 whenever
`delta_ns < block_read_ns·N`.  The result lives in `Nat`, so it is never
negative, and the subtraction is only ever taken on the guarded branch,
so it never underflows. -/
theorem c2_seek_time_never_underflows (delta_ns block_read_ns num_seeks : Nat)
    (hN : 0 < num_seeks) (hprod : block_read_ns * num_seeks < U64) :
    (block_read_ns * num_seeks < delta_ns →
        get_seek_for_count delta_ns block_read_ns num_seeks
          = (delta_ns - block_read_ns * num_seeks) / num_seeks) ∧
    (delta_ns < block_read_ns * num_seeks →
        get_seek_for_count delta_ns block_read_ns num_seeks = 0) := by
  have hval : get_seek_for_count delta_ns block_read_ns num_seeks
      = if block_read_ns * num_seeks < delta_ns
        then (delta_ns - block_read_ns * num_seeks) / num_seeks else 0 := by
    unfold get_seek_for_count
    rw [Nat.mod_eq_of_lt hprod]
  rw [hval]
  constructor
  · intro h; rw [if_pos h]
  · intro h; rw [if_neg (by omega)]

/-- Witness for Claim C2: with N = 2, delta_ns = 100 and
block_read_ns = 10, the computed seek time is (100 − 20) / 2. -/
theorem c2_seek_time_witness :
    get_seek_for_count 100 10 2 = (100 - 10 * 2) / 2 :=
  (c2_seek_time_never_underflows 100 10 2 (by norm_num)
    (by norm_num [U64])).1 (by norm_num)

/-- Claim C3 counterexample: when `fpathconf` reports the raw alignment
3 (not a power of two) for a device with physical block size 512 and
size 4096, the descriptor built by `get_blkdev_info` stores alignment 3
unchanged — the prober performs no power-of-two rounding, refuting the
claim that `blkdev_info.alignment` is always a power of two. -/
theorem c3_prober_alignment_counterexample :
    get_blkdev_info 512 4096 3 = some ⟨4096, 8, 512, 3⟩ ∧
      ¬ ∃ k, (3 : Nat) = 2 ^ k := by
  refine ⟨by rfl, ?_⟩
  rintro ⟨k, hk⟩
  rcases k with _ | _ | k
  · simp at hk
  · simp at hk
  · have h4 : 4 ≤ 2 ^ (k + 2) := by
      calc (4 : Nat) = 2 ^ 2 := by norm_num
      _ ≤ 2 ^ (k + 2) := Nat.pow_le_pow_right (by norm_num) (by omega)
    omega

/-- Claim C3 (amended): the Device Prober stores the raw OS-reported
alignment (or the physical-block-size fallback) in
`blkdev_info.alignment` without rounding; the rounding to the next power
of two happens at every buffer allocation instead —
`allocate_aligned_memory` passes
`smallest_power_of_2_that_holds(alignment)` to `posix_memalign`, and
that value is always a power of two ≥ 1 (whenever the allocation does
not abort because the alignment exceeds the largest unsigned-int power
of two). -/
theorem c3_allocator_alignment_amended (block_size dev_size : Nat)
    (align_l : Int) (info : blkdev_info) (p : Nat)
    (hinfo : get_blkdev_info block_size dev_size align_l = some info)
    (hp : smallest_power_of_2_that_holds info.alignment = some p) :
    (∃ k, p = 2 ^ k) ∧ 1 ≤ p := by
  obtain ⟨⟨k, hk⟩, hle⟩ := smallest_power_of_2_pow hp
  refine ⟨⟨k, hk⟩, ?_⟩
  rw [hk]
  exact Nat.one_le_two_pow

/-- Witness for Claim C3 (amended): the descriptor of the
counterexample (raw alignment 3) leads to the allocator alignment 4,
which is a power of two ≥ 1. -/
theorem c3_allocator_alignment_witness : (∃ k, (4 : Nat) = 2 ^ k) ∧ 1 ≤ 4 :=
  c3_allocator_alignment_amended 512 4096 3 ⟨4096, 8, 512, 3⟩ 4 (by rfl)
    (by simp [smallest_power_of_2_that_holds, log2_floor])

/-- Claim C4: a single sequential trial at `read_size > 0` rounds
`read_size` up to the multiple `M` of the device alignment
(`M % alignment = 0`, `read_size ≤ M`), clamps it to `dev_size` when it
exceeds `dev_size` (giving `A`), performs exactly two reads of size `A`
— one at offset 0 and one at offset `dev_size − A`, which therefore ends
at the device's last byte — and reports total bytes `A * 2` and
per-block time `delta_ns / ((A * 2) / block_size)`.  The hypotheses keep
the `size_t` arithmetic of the C code below `2 ^ 64`: the alignment
rounding must not wrap and the device size must fit the kernel's signed
64-bit ioctl range. -/
theorem c4_get_block_read_for_size_spec (info : blkdev_info)
    (read_size delta_ns M A : Nat)
    (hrs : 0 < read_size) (hal : 0 < info.alignment)
    (hno : read_size + info.alignment ≤ U64) (hdev : info.dev_size < 2 ^ 63)
    (hM : M = align_ceil read_size info.alignment)
    (hA : A = if info.dev_size < M then info.dev_size else M) :
    M % info.alignment = 0 ∧ read_size ≤ M ∧
    (get_block_read_for_size info read_size delta_ns).reads
      = [(0, A), (info.dev_size - A, A)] ∧
    (info.dev_size - A) + A = info.dev_size ∧
    (get_block_read_for_size info read_size delta_ns).total_bytes = A * 2 ∧
    (get_block_read_for_size info read_size delta_ns).block_read_ns
      = delta_ns / (A * 2 / info.block_size) := by
  have hMmod : M % info.alignment = 0 := by
    rw [hM]; exact align_ceil_mod hal hno
  have hMge : read_size ≤ M := by
    rw [hM]; exact align_ceil_ge hal hno
  have hAle : A ≤ info.dev_size := by
    rw [hA]
    by_cases hc : info.dev_size < M
    · rw [if_pos hc]
    · rw [if_neg hc]; omega
  have hA2 : A * 2 < U64 := by
    have e63 : (2 : Nat) ^ 63 = 9223372036854775808 := by norm_num
    have e64 : U64 = 18446744073709551616 := by norm_num [U64]
    omega
  refine ⟨hMmod, hMge, ?_, by omega, ?_, ?_⟩
  · simp only [get_block_read_for_size]
    rw [← hM, ← hA]
  · simp only [get_block_read_for_size]
    rw [← hM, ← hA, Nat.mod_eq_of_lt hA2]
  · simp only [get_block_read_for_size]
    rw [← hM, ← hA, Nat.mod_eq_of_lt hA2]

/-- Witness for Claim C4: device of size 4096 with block size 512 and
alignment 512; requested read size 1000 is rounded to 1024, not clamped,
and the trial reads 1024 bytes at offsets 0 and 3072, reporting 2048
total bytes and per-block time 100000 / (2048 / 512). -/
theorem c4_get_block_read_for_size_witness :
    (1024 : Nat) % 512 = 0 ∧ (1000 : Nat) ≤ 1024 ∧
    (get_block_read_for_size ⟨4096, 8, 512, 512⟩ 1000 100000).reads
      = [(0, 1024), (4096 - 1024, 1024)] ∧
    (4096 - 1024) + 1024 = 4096 ∧
    (get_block_read_for_size ⟨4096, 8, 512, 512⟩ 1000 100000).total_bytes
      = 1024 * 2 ∧
    (get_block_read_for_size ⟨4096, 8, 512, 512⟩ 1000 100000).block_read_ns
      = 100000 / (1024 * 2 / 512) :=
  c4_get_block_read_for_size_spec ⟨4096, 8, 512, 512⟩ 1000 100000 1024 1024
    (by norm_num) (by norm_num) (by norm_num [U64]) (by norm_num)
    (by decide) (by decide)

/-- Claim C7 counterexample: with the power-of-two alignment 2 and
x = 2 ^ 64 − 1 (both representable in size_t), the sum in `align_ceil`
wraps modulo 2 ^ 64: the result is 0, which is not ≥ x.  This refutes
the claim that `align_ceil(x, a) ≥ x` holds for every x under the
fixed-width modulo-2^64 arithmetic. -/
theorem c7_align_ceil_ge_counterexample :
    (∃ k, (2 : Nat) = 2 ^ k) ∧ align_ceil (2 ^ 64 - 1) 2 = 0 ∧
      ¬ (2 ^ 64 - 1 ≤ align_ceil (2 ^ 64 - 1) 2) :=
  ⟨⟨1, rfl⟩, by decide, by decide⟩

/-- Claim C7 (amended): for every size_t value x and every non-zero
power-of-two alignment a with x + a ≤ 2 ^ 64 (so that the size_t sum in
`align_ceil` cannot wrap), `align_ceil x a` is divisible by a and
`align_ceil x a ≥ x`.  For x > 2 ^ 64 − a (x not a multiple of a) the
sum wraps modulo 2 ^ 64 and the result is smaller than x, as the
counterexample shows. -/
theorem c7_align_ceil_mod_and_ge (x a k : Nat) (hak : a = 2 ^ k)
    (hle : x + a ≤ U64) :
    align_ceil x a % a = 0 ∧ x ≤ align_ceil x a := by
  have ha : 0 < a := by
    rw [hak]; exact Nat.pos_pow_of_pos k (by norm_num)
  exact ⟨align_ceil_mod ha hle, align_ceil_ge ha hle⟩

/-- Witness for Claim C7 (amended): concrete instance x = 5, a = 2:
align_ceil 5 2 = 6 is a multiple of 2 and ≥ 5. -/
theorem c7_align_ceil_witness : align_ceil 5 2 % 2 = 0 ∧ 5 ≤ align_ceil 5 2 :=
  c7_align_ceil_mod_and_ge 5 2 1 (by norm_num) (by norm_num [U64])

theorem two_pow_div_two (m : Nat) : 2 ^ (m + 1) / 2 = 2 ^ m := by
  rw [pow_succ]
  exact Nat.mul_div_cancel _ (by norm_num)

/-- Powers of two landing in the same half-open dyadic interval
`(p/2, p]` around a value x are equal. -/
theorem pow2_interval_unique {x j k : Nat} (hj1 : 2 ^ j / 2 < x)
    (hj2 : x ≤ 2 ^ j) (hk1 : 2 ^ k / 2 < x) (hk2 : x ≤ 2 ^ k) : k = j := by
  by_contra hne
  rcases Nat.lt_or_ge k j with hlt | hge
  · obtain ⟨j', rfl⟩ : ∃ j', j = j' + 1 := ⟨j - 1, by omega⟩
    rw [two_pow_div_two] at hj1
    have : (2 : Nat) ^ k ≤ 2 ^ j' := Nat.pow_le_pow_right (by norm_num) (by omega)
    omega
  · have hkj : j < k := by omega
    obtain ⟨k', rfl⟩ : ∃ k', k = k' + 1 := ⟨k - 1, by omega⟩
    rw [two_pow_div_two] at hk1
    have : (2 : Nat) ^ j ≤ 2 ^ k' := Nat.pow_le_pow_right (by norm_num) (by omega)
    omega

/-- Claim C6: `smallest_power_of_2_that_holds` maps 0 to 1; it fails
fatally (returns `none`) on inputs above `2 ^ 31`, the largest power of
two an unsigned int holds; for non-zero inputs up to `2 ^ 31` the result
p is the unique power of two with `p/2 < x ≤ p` (the smallest power of
two ≥ x); and the function is idempotent on its domain: applied to its
own output it returns that output. -/
theorem c6_smallest_power_of_2_spec :
    smallest_power_of_2_that_holds 0 = some 1 ∧
    (∀ x, 2 ^ 31 < x → smallest_power_of_2_that_holds x = none) ∧
    (∀ x p, 0 < x → x ≤ 2 ^ 31 →
        smallest_power_of_2_that_holds x = some p →
        (∃ k, p = 2 ^ k) ∧ p / 2 < x ∧ x ≤ p ∧
        (∀ q k, q = 2 ^ k → q / 2 < x → x ≤ q → q = p)) ∧
    (∀ x p, smallest_power_of_2_that_holds x = some p →
        smallest_power_of_2_that_holds p = some p) := by
  refine ⟨by rfl, ?_, ?_, ?_⟩
  · intro x hx
    unfold smallest_power_of_2_that_holds
    rw [if_neg (by omega), if_pos hx]
  · intro x p hx hx31 hp
    have hchar : (∃ k, p = 2 ^ k) ∧ p / 2 < x ∧ x ≤ p := by
      unfold smallest_power_of_2_that_holds at hp
      rw [if_neg (by omega), if_neg (by omega)] at hp
      simp only at hp
      obtain ⟨hle, hlt⟩ := log2_floor_spec x hx
      by_cases heq : 2 ^ log2_floor x = x
      · rw [if_pos heq, Option.some.injEq] at hp
        subst hp
        refine ⟨⟨log2_floor x, heq.symm⟩, ?_, le_refl x⟩
        rw [← heq]
        exact Nat.div_lt_self (by positivity) (by norm_num)
      · rw [if_neg heq, Option.some.injEq] at hp
        subst hp
        refine ⟨⟨log2_floor x + 1, rfl⟩, ?_, by omega⟩
        rw [two_pow_div_two]
        omega
    obtain ⟨⟨j, hj⟩, h1, h2⟩ := hchar
    refine ⟨⟨j, hj⟩, h1, h2, ?_⟩
    intro q k hq hq1 hq2
    subst hq
    subst hj
    exact congrArg (2 ^ ·) (pow2_interval_unique h1 h2 hq1 hq2)
  · intro x p hp
    obtain ⟨⟨k, hk⟩, hle⟩ := smallest_power_of_2_pow hp
    subst hk
    have hk31 : k ≤ 31 := by
      by_contra hc
      have : 2 ^ 32 ≤ 2 ^ k := Nat.pow_le_pow_right (by norm_num) (by omega)
      omega
    exact smallest_power_of_2_of_pow hk31

/-- Witness for Claim C6: the input 5 maps to 8, and applying the
function to the output 8 returns 8 again (idempotence instance). -/
theorem c6_smallest_power_of_2_witness :
    smallest_power_of_2_that_holds 8 = some 8 :=
  c6_smallest_power_of_2_spec.2.2.2 5 8
    (by simp [smallest_power_of_2_that_holds, log2_floor])

/-- Claim C10: `split_time` is an exact decomposition of any uint64
nanosecond count: the weighted sum of the nine components reconstructs
the input exactly, and every component below the top one is strictly
bounded by the ratio of adjacent scales (months ≤ 11, days ≤ 30,
hours ≤ 23, minutes ≤ 59, seconds ≤ 59, miliseconds ≤ 999,
microseconds ≤ 999, nanoseconds ≤ 999). -/
theorem c10_split_time_exact (n : Nat) (h : n < U64) :
    (split_time n).years * SCALE_YEAR + (split_time n).months * SCALE_MONTH
      + (split_time n).days * SCALE_DAY + (split_time n).hours * SCALE_HOUR
      + (split_time n).minutes * SCALE_MIN + (split_time n).seconds * SCALE_S
      + (split_time n).miliseconds * SCALE_MS
      + (split_time n).microseconds * SCALE_US
      + (split_time n).nanoseconds * SCALE_NS = n ∧
    (split_time n).months ≤ 11 ∧ (split_time n).days ≤ 30 ∧
    (split_time n).hours ≤ 23 ∧ (split_time n).minutes ≤ 59 ∧
    (split_time n).seconds ≤ 59 ∧ (split_time n).miliseconds ≤ 999 ∧
    (split_time n).microseconds ≤ 999 ∧ (split_time n).nanoseconds ≤ 999 := by
  have h64 : n < 18446744073709551616 := by
    have hU : U64 = 18446744073709551616 := by norm_num [U64]
    omega
  have hU32 : U32 = 4294967296 := by norm_num [U32]
  have hNs : SCALE_NS = 1 := rfl
  have hUs : SCALE_US = 1000 := by norm_num [SCALE_US, SCALE_NS]
  have hMs : SCALE_MS = 1000000 := by norm_num [SCALE_MS, SCALE_US, SCALE_NS]
  have hS : SCALE_S = 1000000000 := by
    norm_num [SCALE_S, SCALE_MS, SCALE_US, SCALE_NS]
  have hMin : SCALE_MIN = 60000000000 := by
    norm_num [SCALE_MIN, SCALE_S, SCALE_MS, SCALE_US, SCALE_NS]
  have hH : SCALE_HOUR = 3600000000000 := by
    norm_num [SCALE_HOUR, SCALE_MIN, SCALE_S, SCALE_MS, SCALE_US, SCALE_NS]
  have hD : SCALE_DAY = 86400000000000 := by
    norm_num [SCALE_DAY, SCALE_HOUR, SCALE_MIN, SCALE_S, SCALE_MS, SCALE_US,
      SCALE_NS]
  have hY : SCALE_YEAR = 31536000000000000 := by
    norm_num [SCALE_YEAR, SCALE_DAY, SCALE_HOUR, SCALE_MIN, SCALE_S, SCALE_MS,
      SCALE_US, SCALE_NS]
  have hMo : SCALE_MONTH = 2628000000000000 := by
    norm_num [SCALE_MONTH, SCALE_YEAR, SCALE_DAY, SCALE_HOUR, SCALE_MIN,
      SCALE_S, SCALE_MS, SCALE_US, SCALE_NS]
  simp only [split_time, hY, hMo, hD, hH, hMin, hS, hMs, hUs, hNs, hU32]
  rw [Nat.mod_eq_of_lt
    (show n / 31536000000000000 < 4294967296 by omega)]
  rw [Nat.mod_eq_of_lt
    (show n % 31536000000000000 / 2628000000000000 < 4294967296 by omega)]
  rw [Nat.mod_eq_of_lt
    (show n % 31536000000000000 % 2628000000000000 / 86400000000000
      < 4294967296 by omega)]
  rw [Nat.mod_eq_of_lt
    (show n % 31536000000000000 % 2628000000000000 % 86400000000000
        / 3600000000000 < 4294967296 by omega)]
  rw [Nat.mod_eq_of_lt
    (show n % 31536000000000000 % 2628000000000000 % 86400000000000
        % 3600000000000 / 60000000000 < 4294967296 by omega)]
  rw [Nat.mod_eq_of_lt
    (show n % 31536000000000000 % 2628000000000000 % 86400000000000
        % 3600000000000 % 60000000000 / 1000000000 < 4294967296 by omega)]
  rw [Nat.mod_eq_of_lt
    (show n % 31536000000000000 % 2628000000000000 % 86400000000000
        % 3600000000000 % 60000000000 % 1000000000 / 1000000
      < 4294967296 by omega)]
  rw [Nat.mod_eq_of_lt
    (show n % 31536000000000000 % 2628000000000000 % 86400000000000
        % 3600000000000 % 60000000000 % 1000000000 % 1000000 / 1000
      < 4294967296 by omega)]
  rw [Nat.mod_eq_of_lt
    (show n % 31536000000000000 % 2628000000000000 % 86400000000000
        % 3600000000000 % 60000000000 % 1000000000 % 1000000 % 1000 / 1
      < 4294967296 by omega)]
  omega

/-- Witness for Claim C10: the decomposition at the concrete input
98765432109876543 ns. -/
theorem c10_split_time_witness :
    (split_time 98765432109876543).years * SCALE_YEAR
      + (split_time 98765432109876543).months * SCALE_MONTH
      + (split_time 98765432109876543).days * SCALE_DAY
      + (split_time 98765432109876543).hours * SCALE_HOUR
      + (split_time 98765432109876543).minutes * SCALE_MIN
      + (split_time 98765432109876543).seconds * SCALE_S
      + (split_time 98765432109876543).miliseconds * SCALE_MS
      + (split_time 98765432109876543).microseconds * SCALE_US
      + (split_time 98765432109876543).nanoseconds * SCALE_NS
      = 98765432109876543 ∧
    (split_time 98765432109876543).months ≤ 11 ∧
    (split_time 98765432109876543).days ≤ 30 ∧
    (split_time 98765432109876543).hours ≤ 23 ∧
    (split_time 98765432109876543).minutes ≤ 59 ∧
    (split_time 98765432109876543).seconds ≤ 59 ∧
    (split_time 98765432109876543).miliseconds ≤ 999 ∧
    (split_time 98765432109876543).microseconds ≤ 999 ∧
    (split_time 98765432109876543).nanoseconds ≤ 999 :=
  c10_split_time_exact 98765432109876543 (by norm_num [U64])

/-- Exit condition of the sequential autodetection loop: whatever state
the loop is entered in, it leaves with cumulative elapsed time at or
above the threshold, or with the current read-size candidate past the
ceiling.  Proved by induction on an upper bound of the remaining
distance to the ceiling. -/
theorem auto_seq_loop_exit_cond (info : blkdev_info) (elapsed : Nat → Nat) :
    ∀ (fuel read_size : Nat) (hpos : 0 < read_size) (tb tns : Nat),
      MAX_AUTO_SEQ_READ_BYTES + 1 - read_size ≤ fuel →
      MIN_AUTO_SEQ_READ_NS
          ≤ (auto_seq_loop info elapsed read_size hpos tb tns).total_read_ns ∨
        MAX_AUTO_SEQ_READ_BYTES
          < (auto_seq_loop info elapsed read_size hpos tb tns).read_size := by
  intro fuel
  induction fuel with
  | zero =>
    intro rs hpos tb tns hf
    rw [auto_seq_loop, dif_neg (by omega)]
    refine Or.inr ?_
    show MAX_AUTO_SEQ_READ_BYTES < rs
    omega
  | succ m ih =>
    intro rs hpos tb tns hf
    rw [auto_seq_loop]
    by_cases hg : tns < MIN_AUTO_SEQ_READ_NS ∧ rs ≤ MAX_AUTO_SEQ_READ_BYTES
    · rw [dif_pos hg]
      exact ih (rs * 2) _ _ _ (by omega)
    · rw [dif_neg hg]
      by_cases h1 : MIN_AUTO_SEQ_READ_NS ≤ tns
      · exact Or.inl h1
      · refine Or.inr ?_
        show MAX_AUTO_SEQ_READ_BYTES < rs
        omega

/-- Claim C1: the adaptive sequential benchmark loop of
`get_block_read_ns` (read_size = 0) terminates — witnessed by the
well-founded recursion defining `auto_seq_loop` together with the exit
property below — and on exit the cumulative elapsed time of all trials
is ≥ 2 000 000 000 ns or the current read-size candidate has passed the
1 GiB ceiling (never both conditions violated); `get_block_read_ns`
returns the per-block time
cumulative_elapsed / (cumulative_bytes / block_size), computed from the
cumulative totals `s` of all trials (not from the last trial alone),
and reports those same cumulative totals through its out-parameters
(the second and third components of the returned triple). -/
theorem c1_adaptive_sequential_sizing (info : blkdev_info)
    (elapsed : Nat → Nat) :
    ∃ s : seq_totals,
      auto_seq_loop info elapsed DEFAULT_SEQ_READ_BYTES
        default_seq_read_bytes_pos 0 0 = s ∧
      (MIN_AUTO_SEQ_READ_NS ≤ s.total_read_ns ∨
        MAX_AUTO_SEQ_READ_BYTES < s.read_size) ∧
      get_block_read_ns info elapsed 0
        = (s.total_read_ns / (s.total_bytes / info.block_size),
           s.total_bytes, s.total_read_ns) := by
  refine ⟨auto_seq_loop info elapsed DEFAULT_SEQ_READ_BYTES
      default_seq_read_bytes_pos 0 0, rfl, ?_, ?_⟩
  · exact auto_seq_loop_exit_cond info elapsed (MAX_AUTO_SEQ_READ_BYTES + 1)
      DEFAULT_SEQ_READ_BYTES default_seq_read_bytes_pos 0 0 (by omega)
  · rw [get_block_read_ns, if_pos rfl]

/-- Monotonicity of the seek autodetection loop: the accumulated seek
count never decreases. -/
theorem auto_seek_loop_total_seeks_ge (elapsed : Nat → Nat) :
    ∀ (fuel num_seeks : Nat) (hpos : 0 < num_seeks) (ts tns : Nat),
      MAX_AUTO_RAND_READ_SEEKS + 1 - num_seeks ≤ fuel →
      ts ≤ (auto_seek_loop elapsed num_seeks hpos ts tns).total_seeks := by
  intro fuel
  induction fuel with
  | zero =>
    intro ns hpos ts tns hf
    rw [auto_seek_loop, dif_neg (by omega)]
  | succ m ih =>
    intro ns hpos ts tns hf
    rw [auto_seek_loop]
    by_cases hg : tns < MIN_AUTO_RAND_READ_NS ∧ ns ≤ MAX_AUTO_RAND_READ_SEEKS
    · rw [dif_pos hg]
      exact Nat.le_trans (by omega)
        (ih (ns * 2) _ (ts + ns) (tns + elapsed ns) (by omega))
    · rw [dif_neg hg]

/-- Claim C9: `run_benchmarks` stores the caller-supplied seek-count
parameter in the `num_seeks` field of the results record, not the number
of seeks actually performed; in particular with parameter 0
(autodetect) the record says 0 even though the autodetection loop that
`get_seek_ns` then runs accumulates (and performs) at least
DEFAULT_RAND_READ_SEEKS = 200 random reads in `total_seeks`: each loop
round calls `get_seek_for_count`, which reads one block per counted
seek. -/
theorem c9_num_seeks_field (info : blkdev_info)
    (elapsed_seq elapsed_seek : Nat → Nat) (read_size : Nat) :
    (∀ num_seeks,
        (run_benchmarks info elapsed_seq elapsed_seek num_seeks
            read_size).num_seeks = num_seeks) ∧
    ∃ s : seek_totals,
      auto_seek_loop elapsed_seek DEFAULT_RAND_READ_SEEKS
        default_rand_read_seeks_pos 0 0 = s ∧
      DEFAULT_RAND_READ_SEEKS ≤ s.total_seeks := by
  constructor
  · intro n
    unfold run_benchmarks
    simp
  · refine ⟨auto_seek_loop elapsed_seek DEFAULT_RAND_READ_SEEKS
        default_rand_read_seeks_pos 0 0, rfl, ?_⟩
    rw [auto_seek_loop, dif_pos (by decide)]
    exact Nat.le_trans (by omega)
      (auto_seek_loop_total_seeks_ge elapsed_seek
        (MAX_AUTO_RAND_READ_SEEKS + 1) (DEFAULT_RAND_READ_SEEKS * 2) _
        (0 + DEFAULT_RAND_READ_SEEKS)
        (0 + elapsed_seek DEFAULT_RAND_READ_SEEKS) (by omega))

/-- Claim C5 counterexample: on the target platform RAND_MAX is
2 ^ 31 − 1, so `random64` returns `random() * 8589934596` (the scale
(2^64 − 1) / (2^31 − 1)).  For a device with exactly 8589934596 blocks,
every one of the 2^31 possible generator outputs reduces to block index
0: the image of the whole generator range under the block-index
computation is {0}.  The reduction modulo block_count is therefore
maximally biased toward the lowest index, refuting the claim that the
scaling introduces no modulo bias toward low block indices. -/
theorem c5_random64_bias_counterexample :
    Finset.image (fun r => seek_block_idx GLIBC_RAND_MAX r 8589934596)
        (Finset.range (2 ^ 31)) = {0} := by
  ext x
  simp only [Finset.mem_image, Finset.mem_range, Finset.mem_singleton]
  constructor
  · rintro ⟨r, hr, hrx⟩
    rw [← hrx]
    unfold seek_block_idx random64 GLIBC_RAND_MAX U64
    rw [if_pos (by norm_num)]
    have hsc : ((2 : Nat) ^ 64 - 1) / (2 ^ 31 - 1) = 8589934596 := by norm_num
    rw [hsc]
    have hlt : r * 8589934596 < 2 ^ 64 := by
      have h1 : r ≤ 2 ^ 31 - 1 := by omega
      have h2 : r * 8589934596 ≤ (2 ^ 31 - 1) * 8589934596 :=
        Nat.mul_le_mul_right _ h1
      have h3 : ((2 : Nat) ^ 31 - 1) * 8589934596 < 2 ^ 64 := by norm_num
      omega
    rw [Nat.mod_eq_of_lt hlt, Nat.mul_mod_left]
  · rintro rfl
    exact ⟨0, by positivity, by decide⟩

/-- Claim C5 (amended): when RAND_MAX < 2^64 − 1, `random64` returns
`random()` multiplied by the scale floor((2^64 − 1) / RAND_MAX); the
product never wraps, the outputs are evenly spaced over the 64-bit range
and the largest one is within RAND_MAX of 2^64 − 1, so high block
indices are reachable (unlike with the unscaled generator) — but the
subsequent modulo reduction is not bias-free for every block count, as
the counterexample shows.  When RAND_MAX already covers 64 bits the
generator output is used directly. -/
theorem c5_random64_scaling_amended (randMax r : Nat) (h0 : 0 < randMax)
    (hr : r ≤ randMax) :
    (randMax < U64 - 1 →
        random64 randMax r = r * ((U64 - 1) / randMax) ∧
        U64 - 1 - randMax ≤ random64 randMax randMax) ∧
    (U64 - 1 ≤ randMax → r < U64 → random64 randMax r = r) := by
  have hU : 0 < U64 := by norm_num [U64]
  constructor
  · intro hs
    have hdm := Nat.div_add_mod (U64 - 1) randMax
    have hmod : (U64 - 1) % randMax < randMax := Nat.mod_lt _ h0
    have hrq : r * ((U64 - 1) / randMax)
        ≤ randMax * ((U64 - 1) / randMax) :=
      Nat.mul_le_mul_right _ hr
    have heq : random64 randMax r = r * ((U64 - 1) / randMax) := by
      unfold random64
      rw [if_pos hs]
      exact Nat.mod_eq_of_lt (by omega)
    refine ⟨heq, ?_⟩
    have heq2 : random64 randMax randMax
        = randMax * ((U64 - 1) / randMax) := by
      unfold random64
      rw [if_pos hs]
      exact Nat.mod_eq_of_lt (by omega)
    rw [heq2]
    omega
  · intro hge hlt
    unfold random64
    rw [if_neg (by omega)]
    exact Nat.mod_eq_of_lt hlt

/-- Witness for Claim C5 (amended): with the platform RAND_MAX and
generator output 3, random64 returns 3 times the scale. -/
theorem c5_random64_scaling_witness :
    random64 GLIBC_RAND_MAX 3 = 3 * ((U64 - 1) / GLIBC_RAND_MAX) :=
  ((c5_random64_scaling_amended GLIBC_RAND_MAX 3 (by decide) (by decide)).1
    (by decide)).1

/-- Claim C8 (evaluation at the failing input): with the 4-entry
SECOND_FRACTION_UNITS table (ratio 1000) and input exactly 1000 ^ 4, the
loop of `humanize_value` exits with value 1 and unit index 4 =
NUM_SECOND_FRACTION_UNITS — one past the table's largest valid index 3,
so the C code reads `units[4]` out of bounds instead of clamping the
index to the largest table index as the claim states (the loop guard is
`unit_exp < num_units`, not `unit_exp < num_units - 1`). -/
theorem c8_humanize_value_index_overrun :
    humanize_value ((1000 : ℚ) ^ 4) 1000 NUM_SECOND_FRACTION_UNITS
      = (1, NUM_SECOND_FRACTION_UNITS) ∧
    NUM_SECOND_FRACTION_UNITS - 1 < NUM_SECOND_FRACTION_UNITS := by
  refine ⟨?_, by decide⟩
  rw [humanize_value, NUM_SECOND_FRACTION_UNITS]
  rw [humanize_loop]; rw [dif_pos (by norm_num)]
  norm_num
  rw [humanize_loop]; rw [dif_pos (by norm_num)]
  norm_num
  rw [humanize_loop]; rw [dif_pos (by norm_num)]
  norm_num
  rw [humanize_loop]; rw [dif_pos (by norm_num)]
  norm_num
  rw [humanize_loop]; rw [dif_neg (by norm_num)]

end Hdtime
